import Mathlib

/-!
Verification development for the `image-compression-wasm` repository
(`src/src/lib.rs`).

The single source file implements `compress(bytes, quality, resize_percent)`:
it decodes the input with the external `image` crate, optionally downscales,
then re-encodes per container format (indexed PNG via `imagequant`, JPEG for
JPEG/WebP, per-frame-quantized animated GIF), and finally returns the original
bytes whenever the encoded output is larger.

Modelling conventions:
* byte buffers are `List Nat`;
* machine floats (`f32` in `resize_image`, `f64` inside the `image` crate's
  `resize_dimensions`) are embedded as exact rationals `ℚ`; every concrete
  input used in a theorem below is chosen far from any rounding boundary, so
  the rational value agrees with the float value computed by the real code;
* the external codec services (`image` decoders/encoders, `imagequant`) are
  out of scope of the repository and are passed in as an explicit `Codec`
  record of abstract functions; everything the repository itself computes
  (magic-byte dispatch, resize arithmetic, palette/index plumbing, the
  per-frame GIF pipeline, the size guard) is embedded concretely;
* fallible Rust code (`Result`, `?`) becomes `Except Err`; a Rust panic
  (`unwrap`, `expect`, out-of-bounds slice indexing) is modelled as the
  terminal error `Err.panicked`.
-/

namespace ImageCompression

/-- An RGBA color value, one byte per channel (`imagequant::RGBA`, and also a
decoded pixel of the `image` crate). -/
structure Rgba where
  r : Nat
  g : Nat
  b : Nat
  a : Nat
deriving DecidableEq

/-- Channel layout of a decoded raster, restricted to the two layouts the
pipeline distinguishes (spec §3: `RGB | RGBA`; `image::ColorType`). -/
inductive ColorType
  | rgb8
  | rgba8
deriving DecidableEq

/-- Bytes per pixel of a channel layout. -/
def ColorType.bytesPerPixel : ColorType → Nat
  | .rgb8 => 3
  | .rgba8 => 4

/-- A decoded in-memory image (`image::DynamicImage`): dimensions, channel
layout, and row-major pixel content. -/
structure DynamicImage where
  width : Nat
  height : Nat
  color : ColorType
  pixels : List Rgba
deriving DecidableEq

/-- Flattens pixels into raw bytes using the packing function of the image's
channel layout. -/
def packPixels (pack : Rgba → List Nat) : List Rgba → List Nat
  | [] => []
  | c :: rest => pack c ++ packPixels pack rest

/-- Models `DynamicImage::as_bytes`: the raw byte view of the raster in its
own channel layout (3 bytes per pixel for RGB, 4 for RGBA). -/
def DynamicImage.asBytes (img : DynamicImage) : List Nat :=
  match img.color with
  | .rgb8 => packPixels (fun c => [c.r, c.g, c.b]) img.pixels
  | .rgba8 => packPixels (fun c => [c.r, c.g, c.b, c.a]) img.pixels

/-- Models `DynamicImage::into_rgba8`: widens the raster to RGBA; an RGB
source gains the opaque alpha value 255, an RGBA source is returned as is.
Dimensions are unchanged. -/
def DynamicImage.intoRgba8 (img : DynamicImage) : DynamicImage :=
  match img.color with
  | .rgba8 => img
  | .rgb8 =>
    { img with color := .rgba8, pixels := img.pixels.map fun c => { c with a := 255 } }

/-- Models `<[u8]>::chunks_exact(4)` followed by building one `RGBA` per
chunk (lib.rs lines 159-168); a trailing chunk shorter than 4 is dropped,
exactly as `chunks_exact` drops the remainder. -/
def chunksExact4 : List Nat → List Rgba
  | r :: g :: b :: a :: rest => ⟨r, g, b, a⟩ :: chunksExact4 rest
  | _ => []

/-- Resampling filter of the `image` crate (`image::imageops::FilterType`).
The repository only ever passes `Nearest` (lib.rs line 87). -/
inductive FilterType
  | nearest
  | triangle
  | catmullRom
  | gaussian
  | lanczos3
deriving DecidableEq

/-- Rounding to the nearest integer, halves away from zero, as `f64::round`
behaves on the non-negative values arising here. -/
def roundHalf (q : ℚ) : ℤ := ⌊q + 1 / 2⌋

/-- Models the `image` crate's `resize_dimensions(width, height, nwidth,
nheight, fill := false)`: the largest dimensions that preserve the source
aspect ratio while fitting inside `nwidth × nheight`, each clamped below by 1.
The crate computes the ratios in `f64`; here they are exact rationals. The
crate's `u32::MAX` overflow branches are omitted: the produced values are
bounded by `max nwidth 1` and `max nheight 1`, which come from `u32`
arithmetic in the caller. -/
def resizeDimensions (width height nwidth nheight : Nat) : Nat × Nat :=
  let wratio : ℚ := (nwidth : ℚ) / (width : ℚ)
  let hratio : ℚ := (nheight : ℚ) / (height : ℚ)
  let ratio := min wratio hratio
  let nw := max (roundHalf ((width : ℚ) * ratio)).toNat 1
  let nh := max (roundHalf ((height : ℚ) * ratio)).toNat 1
  (nw, nh)

/-- Index-map nearest sampling used to populate the pixels of a resized
raster; models the `image` crate's nearest-neighbor sampler. Only the
dimensions of resized images are relied on by the theorems below. -/
def nearestResample (pixels : List Rgba) (w h nw nh : Nat) : List Rgba :=
  ((List.range nh).map fun oy =>
    (List.range nw).map fun ox =>
      pixels.getD (min (oy * h / nh) (h - 1) * w + min (ox * w / nw) (w - 1))
        ⟨0, 0, 0, 0⟩).flatten

/-- Models `DynamicImage::resize(nwidth, nheight, filter)`: the target box is
first shrunk by `resizeDimensions` to preserve the aspect ratio, then the
raster is resampled to the resulting dimensions. The repository only calls
this with `FilterType.nearest`. -/
def DynamicImage.resize (img : DynamicImage) (nwidth nheight : Nat)
    (filter : FilterType) : DynamicImage :=
  let dims := resizeDimensions img.width img.height nwidth nheight
  { width := dims.1, height := dims.2, color := img.color,
    pixels := nearestResample img.pixels img.width img.height dims.1 dims.2 }

/-- Translation of `resize_image` (lib.rs lines 80-88): identity when the
factor equals 1.0, otherwise resize towards `floor(w·factor) ×
floor(h·factor)` with nearest-neighbor filtering. The `as u32` casts truncate
toward zero, which is `Int.toNat ∘ Int.floor` on the non-negative values in
range. -/
def resize_image (image : DynamicImage) (resize_percent : ℚ) : DynamicImage :=
  if resize_percent = 1 then image
  else
    let width := image.width
    let height := image.height
    let new_width := (⌊(width : ℚ) * resize_percent⌋).toNat
    let new_height := (⌊(height : ℚ) * resize_percent⌋).toNat
    image.resize new_width new_height FilterType.nearest

/-- Error values a `compress` call can surface (spec §7 taxonomy), plus
`panicked` for a Rust panic (`unwrap` / `expect` / slice indexing). -/
inductive Err
  | decodeFailed
  | unsupportedFormat
  | quantizationFailed
  | encodeFailed
  | panicked
deriving DecidableEq

/-- Container formats detectable by `image::guess_format`; the first four are
the ones `compress` handles, the rest hit its catch-all arm. -/
inductive ImageFormat
  | png
  | jpeg
  | gif
  | webP
  | bmp
  | tiff
  | ico
deriving DecidableEq

/-- Tests whether `pattern` occurs at the head of `bytes`. -/
def matchesAt : List Nat → List Nat → Bool
  | [], _ => true
  | _ :: _, [] => false
  | m :: ms, b :: bs => m == b && matchesAt ms bs

/-- Models `image::guess_format` (lib.rs line 28, also the sniffing step of
`image::load_from_memory`): container detection from well-known magic
headers, independent of any user-supplied hint. Undetectable input yields the
`Unsupported` error class of the `image` crate. -/
def guessFormat (bytes : List Nat) : Except Err ImageFormat :=
  if matchesAt [0x89, 0x50, 0x4E, 0x47, 0x0D, 0x0A, 0x1A, 0x0A] bytes then .ok .png
  else if matchesAt [0xFF, 0xD8, 0xFF] bytes then .ok .jpeg
  else if matchesAt [0x47, 0x49, 0x46, 0x38, 0x39, 0x61] bytes then .ok .gif
  else if matchesAt [0x47, 0x49, 0x46, 0x38, 0x37, 0x61] bytes then .ok .gif
  else if matchesAt [0x52, 0x49, 0x46, 0x46] bytes
          && matchesAt [0x57, 0x45, 0x42, 0x50] (bytes.drop 8) then .ok .webP
  else if matchesAt [0x42, 0x4D] bytes then .ok .bmp
  else if matchesAt [0x49, 0x49, 0x2A, 0x00] bytes then .ok .tiff
  else if matchesAt [0x4D, 0x4D, 0x00, 0x2A] bytes then .ok .tiff
  else if matchesAt [0x00, 0x00, 0x01, 0x00] bytes then .ok .ico
  else .error .unsupportedFormat

/-- The arguments `compress` hands to `JpegEncoder::new_with_quality` and
`JpegEncoder::write_image` (lib.rs lines 40-46). -/
structure JpegRequest where
  bytes : List Nat
  width : Nat
  height : Nat
  color : ColorType
  quality : Nat
deriving DecidableEq

/-- PNG color kind selected on the encoder (`png::ColorType`), restricted to
the variant used here plus the default. -/
inductive PngColorKind
  | indexed
  | rgba
deriving DecidableEq

/-- The data `quantify_png_with_color_index` configures on the `png::Encoder`
before writing (lib.rs lines 131-141). -/
structure PngRequest where
  width : Nat
  height : Nat
  rgbPalette : List Nat
  trnsAlpha : List Nat
  colorKind : PngColorKind
  bitDepth : Nat
  bestCompression : Bool
  noFilterFlag : Bool
  adaptiveFilter : Bool
  data : List Nat
deriving DecidableEq

/-- One animation frame (`image::Frame`): raster plus timing and placement
metadata. The delay is in milliseconds. -/
structure GifFrame where
  buffer : DynamicImage
  delay : Nat
  left : Nat
  top : Nat
deriving DecidableEq

/-- Models `image::Frame::new(buffer)`: per its documentation it "constructs
a new frame without any delay", i.e. delay 0 and zero offsets. -/
def GifFrame.new (buffer : DynamicImage) : GifFrame :=
  { buffer := buffer, delay := 0, left := 0, top := 0 }

/-- Loop-count setting of a GIF container (`image::codecs::gif::Repeat`). -/
inductive RepeatKind
  | finite (n : Nat)
  | infinite
deriving DecidableEq

/-- A decoded animated GIF: the collected frames
(`GifDecoder::into_frames().collect_frames()`) together with the loop count
recorded in the source container. `compress` never reads `srcRepeat`. -/
structure GifAnimation where
  frames : List GifFrame
  srcRepeat : RepeatKind
deriving DecidableEq

/-- The data handed to the GIF encoder: the repeat setting from
`set_repeat` and the frame list from `encode_frames` (lib.rs lines 64-66). -/
structure GifRequest where
  repeatMode : RepeatKind
  frames : List GifFrame
deriving DecidableEq

/-- The external quantization service consumed through the narrow interface
of lib.rs lines 156-177: quality bounds (`set_quality(min, max)`), the
flattened RGBA pixels, and the declared dimensions (`imagequant::Image::new`)
produce a palette and one index per pixel (`quantize` + `remapped`). -/
def QuantizeFn : Type :=
  Nat → Nat → List Rgba → Nat → Nat → Except Err (List Rgba × List Nat)

/-- The bundle of external codec services `compress` consumes (spec §1 treats
them as trusted collaborators at the interface boundary): the format-specific
decoder behind `image::load_from_memory`, the three encoders, the GIF frame
decoder, and the quantizer. -/
structure Codec where
  decode : List Nat → ImageFormat → Except Err DynamicImage
  encodeJpeg : JpegRequest → Except Err (List Nat)
  encodePng : PngRequest → Except Err (List Nat)
  gifDecode : List Nat → Except Err GifAnimation
  gifEncode : GifRequest → Except Err (List Nat)
  quantize : QuantizeFn

/-- Models `image::load_from_memory` (lib.rs line 24): guess the container
format from the magic bytes, then decode with the format's decoder; an
undetectable format is the `Unsupported` error before any decoding. -/
def loadFromMemory (env : Codec) (bytes : List Nat) : Except Err DynamicImage :=
  match guessFormat bytes with
  | .error e => .error e
  | .ok fmt => env.decode bytes fmt

/-- Translation of `quantify_and_get_platte_and_indexes` (lib.rs lines
149-178): widen to RGBA, flatten the bytes into `RGBA` chunks, and run the
external quantizer with quality bounds `(0, quality)` and the image's
dimensions. -/
def quantify_and_get_platte_and_indexes (quantize : QuantizeFn)
    (image : DynamicImage) (quality : Nat) : Except Err (List Rgba × List Nat) :=
  let image := image.intoRgba8
  let rgba_data := chunksExact4 image.asBytes
  quantize 0 quality rgba_data image.width image.height

/-- Models `palette[index as usize]` (lib.rs line 100): Rust slice indexing,
which panics when the index is out of bounds. -/
def paletteLookup (palette : List Rgba) (index : Nat) : Except Err Rgba :=
  if h : index < palette.length then .ok (palette.get ⟨index, h⟩)
  else .error .panicked

/-- Looks every index up in the palette, aborting at the first out-of-bounds
index exactly as the `for` loop of lib.rs lines 98-102 would panic there. -/
def lookupAll (palette : List Rgba) : List Nat → Except Err (List Rgba)
  | [] => .ok []
  | i :: rest =>
    match paletteLookup palette i with
    | .error e => .error e
    | .ok c =>
      match lookupAll palette rest with
      | .error e => .error e
      | .ok cs => .ok (c :: cs)

/-- Models `RgbaImage::from_vec(width, height, buf).expect(..)` (lib.rs lines
104-105): `from_vec` yields an image exactly when the buffer holds at least
`4·width·height` bytes, and the `expect` panics otherwise. -/
def rgbaImageFromVec (width height : Nat) (buf : List Nat) :
    Except Err DynamicImage :=
  if 4 * width * height ≤ buf.length then
    .ok { width := width, height := height, color := .rgba8,
          pixels := (chunksExact4 buf).take (width * height) }
  else .error .panicked

/-- Translation of `quantify_png_with_rgba` (lib.rs lines 93-108): quantize,
then reconstruct a dense RGBA raster by looking every index up in the
palette. -/
def quantify_png_with_rgba (quantize : QuantizeFn) (image : DynamicImage)
    (quality : Nat) : Except Err DynamicImage :=
  let width := image.width
  let height := image.height
  match quantify_and_get_platte_and_indexes quantize image quality with
  | .error e => .error e
  | .ok (palette, pixels) =>
    match lookupAll palette pixels with
    | .error e => .error e
    | .ok cols =>
      let buf := packPixels (fun c => [c.r, c.g, c.b, c.a]) cols
      rgbaImageFromVec width height buf

/-- Translation of `quantify_png_with_color_index` (lib.rs lines 114-144):
quantize, split the palette into the RGB table and the parallel alpha table,
and hand everything to the PNG encoder configured for indexed color, bit
depth 8, best compression and no filtering. -/
def quantify_png_with_color_index (quantize : QuantizeFn)
    (encodePng : PngRequest → Except Err (List Nat)) (image : DynamicImage)
    (quality : Nat) : Except Err (List Nat) :=
  let width := image.width
  let height := image.height
  match quantify_and_get_platte_and_indexes quantize image quality with
  | .error e => .error e
  | .ok (palette, indexes) =>
    let rgb_palette := packPixels (fun c => [c.r, c.g, c.b]) palette
    let alpha_values := palette.map Rgba.a
    encodePng { width := width, height := height, rgbPalette := rgb_palette,
                trnsAlpha := alpha_values, colorKind := .indexed, bitDepth := 8,
                bestCompression := true, noFilterFlag := true,
                adaptiveFilter := false, data := indexes }

/-- The arguments the JPEG/WebP arm of `compress` builds for the JPEG encoder
(lib.rs lines 39-46): the raster's own bytes, dimensions and channel layout,
and the quality scaled by 0.75 (`(quality as f32 * 0.75) as u8`, which is
exactly `3·quality / 4` rounded down for the `u8` range). -/
def jpegRequest (image : DynamicImage) (quality : Nat) : JpegRequest :=
  { bytes := image.asBytes, width := image.width, height := image.height,
    color := image.color, quality := 3 * quality / 4 }

/-- Translation of the per-frame closure of the GIF arm (lib.rs lines 55-61):
take the frame's raster (`Frame::into_buffer`, which drops the frame's
metadata), resize it, quantize-and-reconstruct it, and wrap it with
`Frame::new`. The `.unwrap()` on the quantization result turns any failure
into a panic. -/
def gifProcessFrame (quantize : QuantizeFn) (quality : Nat) (r : ℚ)
    (frame : GifFrame) : Except Err GifFrame :=
  let image := frame.buffer
  let image := resize_image image r
  match quantify_png_with_rgba quantize image quality with
  | .error _ => .error .panicked
  | .ok image => .ok (GifFrame.new image)

/-- Maps the per-frame closure over all frames
(`frames.into_iter().map(..).collect::<Vec<_>>()`), aborting at the first
frame whose processing panics. -/
def processFrames (quantize : QuantizeFn) (quality : Nat) (r : ℚ) :
    List GifFrame → Except Err (List GifFrame)
  | [] => .ok []
  | frame :: rest =>
    match gifProcessFrame quantize quality r frame with
    | .error e => .error e
    | .ok f =>
      match processFrames quantize quality r rest with
      | .error e => .error e
      | .ok fs => .ok (f :: fs)

/-- The request the GIF arm hands to the encoder (lib.rs lines 64-66):
`set_repeat(Repeat::Infinite)` followed by `encode_frames`. -/
def mkGifRequest (frames : List GifFrame) : GifRequest :=
  { repeatMode := .infinite, frames := frames }

/-- Translation of the GIF arm of `compress` (lib.rs lines 48-67): re-decode
every frame from the original bytes, process each frame independently, and
encode the result as an infinitely looping animation. -/
def gifBranch (env : Codec) (bytes : List Nat) (quality : Nat) (r : ℚ) :
    Except Err (List Nat) :=
  match env.gifDecode bytes with
  | .error e => .error e
  | .ok anim =>
    match processFrames env.quantize quality r anim.frames with
    | .error e => .error e
    | .ok outFrames => env.gifEncode (mkGifRequest outFrames)

/-- The format dispatch of `compress` (lib.rs lines 33-71): PNG goes through
indexed-PNG quantization, JPEG and WebP through the JPEG encoder, GIF through
the animation pipeline, and every other detected format hits the catch-all
`Unsupported image format` error. -/
def formatBranch (env : Codec) (bytes : List Nat) (quality : Nat) (r : ℚ)
    (image : DynamicImage) : ImageFormat → Except Err (List Nat)
  | .png => quantify_png_with_color_index env.quantize env.encodePng image quality
  | .jpeg => env.encodeJpeg (jpegRequest image quality)
  | .webP => env.encodeJpeg (jpegRequest image quality)
  | .gif => gifBranch env bytes quality r
  | _ => .error .unsupportedFormat

/-- The pipeline of `compress` before the size guard (lib.rs lines 22-71):
load, resize, detect the format, and run the format-specific arm. -/
def compressBody (env : Codec) (bytes : List Nat) (quality : Nat) (r : ℚ) :
    Except Err (List Nat) :=
  match loadFromMemory env bytes with
  | .error e => .error e
  | .ok image =>
    let image := resize_image image r
    match guessFormat bytes with
    | .error e => .error e
    | .ok format => formatBranch env bytes quality r image format

/-- The size guard of lib.rs lines 73-77: return the original bytes verbatim
whenever the encoded output is strictly longer than the input. -/
def sizeGuard (bytes output : List Nat) : List Nat :=
  if bytes.length < output.length then bytes else output

/-- Translation of `compress` (lib.rs lines 22-78): the pre-guard pipeline
followed by exactly one application of the size guard, after the format
branch and never per frame. -/
def compress (env : Codec) (bytes : List Nat) (quality : Nat) (r : ℚ) :
    Except Err (List Nat) :=
  match compressBody env bytes quality r with
  | .error e => .error e
  | .ok output => .ok (sizeGuard bytes output)

/-! ## Shared helper lemmas and concrete test fixtures -/

/-- Factor 1.0 short-circuits `resize_image` before any arithmetic. -/
theorem resize_image_one (img : DynamicImage) : resize_image img 1 = img := by
  rw [resize_image, if_pos rfl]

/-- With a factor other than 1.0, `resize_image` delegates to
`DynamicImage.resize` at the floored target dimensions with the nearest
filter. -/
theorem resize_image_of_ne_one (img : DynamicImage) (f : ℚ) (hf : f ≠ 1) :
    resize_image img f =
      img.resize (⌊(img.width : ℚ) * f⌋).toNat (⌊(img.height : ℚ) * f⌋).toNat
        FilterType.nearest := by
  rw [resize_image, if_neg hf]

/-- The dimensions of a `DynamicImage.resize` result are the ones computed by
`resizeDimensions`. -/
theorem resize_dims (img : DynamicImage) (nw nh : Nat) (ft : FilterType) :
    (img.resize nw nh ft).width = (resizeDimensions img.width img.height nw nh).1 ∧
    (img.resize nw nh ft).height = (resizeDimensions img.width img.height nw nh).2 :=
  ⟨rfl, rfl⟩

/-- Both components of `resizeDimensions` are clamped below by one. -/
theorem resizeDimensions_pos (w h nw nh : Nat) :
    1 ≤ (resizeDimensions w h nw nh).1 ∧ 1 ≤ (resizeDimensions w h nw nh).2 :=
  ⟨Nat.le_max_right _ 1, Nat.le_max_right _ 1⟩

/-- A 1×1 opaque RGBA raster used as concrete decoder output in witnesses. -/
def onePixel : DynamicImage :=
  { width := 1, height := 1, color := .rgba8, pixels := [⟨10, 20, 30, 255⟩] }

/-- A quantizer instance that returns a one-entry palette and all-zero
indexes, one per declared pixel. -/
def trivialQuantize : QuantizeFn := fun _ _ _ w h =>
  .ok ([⟨10, 20, 30, 255⟩], List.replicate (w * h) 0)

/-- A concrete codec environment whose services always succeed with small
outputs. -/
def trivialCodec : Codec :=
  { decode := fun _ _ => .ok onePixel,
    encodeJpeg := fun _ => .ok [0],
    encodePng := fun _ => .ok [0],
    gifDecode := fun _ => .ok { frames := [⟨onePixel, 50, 0, 0⟩], srcRepeat := .finite 3 },
    gifEncode := fun _ => .ok [1],
    quantize := trivialQuantize }

/-- A codec whose PNG encoder always produces 100 bytes, more than any small
input, to exercise the size guard's substitution arm. -/
def inflateCodec : Codec :=
  { trivialCodec with encodePng := fun _ => .ok (List.replicate 100 7) }

/-- The 8-byte PNG magic header, a minimal input that `guessFormat` maps to
PNG. -/
def pngBytes : List Nat := [0x89, 0x50, 0x4E, 0x47, 0x0D, 0x0A, 0x1A, 0x0A]

/-- The 6-byte GIF89a magic header. -/
def gifBytes : List Nat := [0x47, 0x49, 0x46, 0x38, 0x39, 0x61]

/-! ## C1: size non-regression and the single post-branch guard -/

/-- C1: whenever `compress` succeeds, the returned buffer is no longer than
the input; and whenever the pre-guard pipeline produces a strictly longer
buffer, `compress` returns the original input bytes verbatim — the guard
`sizeGuard` is applied exactly once, to the result of the format branch
(`compressBody` contains no other occurrence of it, in particular none in the
per-frame processing `gifProcessFrame`). -/
theorem compress_size_nonregression (env : Codec) (bytes : List Nat)
    (quality : Nat) (r : ℚ) :
    (∀ out, compress env bytes quality r = .ok out → out.length ≤ bytes.length) ∧
    (∀ output, compressBody env bytes quality r = .ok output →
      bytes.length < output.length → compress env bytes quality r = .ok bytes) := by
  constructor
  · intro out hout
    rw [compress] at hout
    cases hbody : compressBody env bytes quality r with
    | error e => rw [hbody] at hout; exact absurd hout (by simp)
    | ok output =>
      rw [hbody] at hout
      have hsub : sizeGuard bytes output = out := by
        injection hout
      rw [← hsub]
      simp only [sizeGuard]
      by_cases hlt : bytes.length < output.length
      · rw [if_pos hlt]
      · rw [if_neg hlt]
        exact Nat.le_of_not_lt hlt
  · intro output hbody hlt
    rw [compress, hbody]
    simp only [sizeGuard]
    rw [if_pos hlt]

/-- Witness for C1 at concrete inputs: with a small encoder the guard passes
the encoded bytes through, and with an inflating encoder `compress` returns
the original PNG header bytes. -/
theorem compress_size_nonregression_witness :
    ([0] : List Nat).length ≤ pngBytes.length ∧
    compress inflateCodec pngBytes 80 1 = .ok pngBytes :=
  ⟨(compress_size_nonregression trivialCodec pngBytes 80 1).1 [0] rfl,
   (compress_size_nonregression inflateCodec pngBytes 80 1).2
     (List.replicate 100 7) rfl (by simp [pngBytes])⟩

/-! ## C7: resize with factor 1.0 is the identity -/

/-- C7: `resize_image` applied with factor exactly 1.0 returns the input
raster unchanged — same dimensions and pixel-identical content — without
reaching the resampling path. -/
theorem resize_identity_at_factor_one (img : DynamicImage) :
    resize_image img 1 = img :=
  resize_image_one img

/-! ## C10: small factors clamp to 1-pixel dimensions -/

/-- C10: for factors strictly between 0 and 1, `resize_image` is a total
function whose output dimensions are each at least one pixel: even when
`floor(dimension · f)` is zero, the `max · 1` clamp inside the underlying
`resizeDimensions` prevents a zero-area raster. -/
theorem resize_dims_at_least_one (img : DynamicImage) (f : ℚ) (h0 : 0 < f)
    (h1 : f < 1) (hw : 1 ≤ img.width) (hh : 1 ≤ img.height) :
    1 ≤ (resize_image img f).width ∧ 1 ≤ (resize_image img f).height := by
  rw [resize_image_of_ne_one img f (ne_of_lt h1)]
  exact resizeDimensions_pos _ _ _ _

/-- A 3×2 opaque raster used to exercise degenerate resize factors. -/
def img3x2 : DynamicImage :=
  { width := 3, height := 2, color := .rgba8,
    pixels := List.replicate 6 ⟨10, 20, 30, 255⟩ }

/-- Witness for C10: a 3×2 raster at factor 1/10 (both floored target
dimensions are zero) still yields dimensions of at least one pixel. -/
theorem resize_dims_at_least_one_witness :
    1 ≤ (resize_image img3x2 (1 / 10)).width ∧
    1 ≤ (resize_image img3x2 (1 / 10)).height :=
  resize_dims_at_least_one img3x2 (1 / 10) (by norm_num) (by norm_num)
    (by decide) (by decide)

/-! ## C2: non-PNG/JPEG/WebP/GIF inputs are rejected -/

/-- The only error the magic-byte sniffing itself can produce is the
unsupported-format one: every arm of `guessFormat` either names a format or
falls through to `Err.unsupportedFormat`. -/
theorem guessFormat_error_is_unsupported (bytes : List Nat) (e : Err)
    (h : guessFormat bytes = .error e) : e = .unsupportedFormat := by
  rw [guessFormat] at h
  split_ifs at h
  all_goals injection h with h
  all_goals exact h.symm

/-- C2: if the container sniffing does not classify the input as PNG, JPEG,
WebP, or GIF — which covers every buffer matching no known magic header, such
as an all-zeros buffer — then `compress` fails with a terminal error and no
output. The error is exactly `UnsupportedFormat` in both failure shapes the
claim covers: when no magic header matches at all (the sniffing inside
`load_from_memory` already fails with the `Unsupported` class, before any
decoding), and when a detected-but-unhandled format decodes and reaches the
catch-all arm of lib.rs 68-70. The only remaining case, a
detected-but-unhandled format whose decode itself fails, is the spec's
separate `DecodeFailed` class; it is still a terminal error with no output by
the first conjunct. -/
theorem compress_rejects_unsupported (env : Codec) (bytes : List Nat)
    (quality : Nat) (r : ℚ)
    (hfmt : ∀ fmt, guessFormat bytes = .ok fmt →
      fmt ≠ .png ∧ fmt ≠ .jpeg ∧ fmt ≠ .webP ∧ fmt ≠ .gif) :
    (∃ e, compress env bytes quality r = .error e) ∧
    (∀ e, guessFormat bytes = .error e →
      compress env bytes quality r = .error .unsupportedFormat) ∧
    (∀ image, loadFromMemory env bytes = .ok image →
      compress env bytes quality r = .error .unsupportedFormat) := by
  cases hg : guessFormat bytes with
  | error e =>
    have he : e = Err.unsupportedFormat :=
      guessFormat_error_is_unsupported bytes e hg
    subst he
    have hload : loadFromMemory env bytes = .error .unsupportedFormat := by
      rw [loadFromMemory, hg]
    have hbody : compressBody env bytes quality r = .error .unsupportedFormat := by
      rw [compressBody, hload]
    refine ⟨⟨_, by rw [compress, hbody]⟩, fun e' _ => by rw [compress, hbody], ?_⟩
    intro image himg
    rw [hload] at himg
    exact absurd himg (by simp)
  | ok fmt =>
    obtain ⟨h1, h2, h3, h4⟩ := hfmt fmt hg
    cases hd : env.decode bytes fmt with
    | error e =>
      have hload : loadFromMemory env bytes = .error e := by
        rw [loadFromMemory, hg]
        exact hd
      have hbody : compressBody env bytes quality r = .error e := by
        rw [compressBody, hload]
      refine ⟨⟨e, by rw [compress, hbody]⟩, fun e' he' => absurd he' (by simp), ?_⟩
      intro image himg
      rw [hload] at himg
      exact absurd himg (by simp)
    | ok img =>
      have hload : loadFromMemory env bytes = .ok img := by
        rw [loadFromMemory, hg]
        exact hd
      have hbr : ∀ image, formatBranch env bytes quality r image fmt =
          .error .unsupportedFormat := by
        intro image
        cases fmt with
        | png => exact absurd rfl h1
        | jpeg => exact absurd rfl h2
        | webP => exact absurd rfl h3
        | gif => exact absurd rfl h4
        | bmp => rfl
        | tiff => rfl
        | ico => rfl
      have hbody : compressBody env bytes quality r = .error .unsupportedFormat := by
        rw [compressBody, hload]
        rw [hg]
        exact hbr _
      exact ⟨⟨_, by rw [compress, hbody]⟩, fun e' he' => absurd he' (by simp),
        fun image _ => by rw [compress, hbody]⟩

/-- An 8-byte all-zeros buffer: no known magic header matches it. -/
def zeroBytes : List Nat := List.replicate 8 0

/-- A minimal buffer carrying the BMP magic header: a detectable container
that `compress` does not handle. -/
def bmpBytes : List Nat := [0x42, 0x4D, 0, 0]

/-- Witness for C2: the all-zeros buffer (no magic header matches) fails
with exactly `UnsupportedFormat`, and so does a BMP input whose decode
succeeds. -/
theorem compress_rejects_unsupported_witness :
    compress trivialCodec zeroBytes 80 1 = .error .unsupportedFormat ∧
    compress trivialCodec bmpBytes 80 1 = .error .unsupportedFormat :=
  ⟨(compress_rejects_unsupported trivialCodec zeroBytes 80 1
      (fun fmt h => by
        rw [show guessFormat zeroBytes = .error .unsupportedFormat from rfl] at h
        exact Except.noConfusion h)).2.1 .unsupportedFormat rfl,
   (compress_rejects_unsupported trivialCodec bmpBytes 80 1
      (fun fmt h => by
        rw [show guessFormat bmpBytes = .ok .bmp from rfl] at h
        injection h with h
        subst h
        decide)).2.2 onePixel rfl⟩

/-! ## C3: the JPEG arm does not narrow RGBA to RGB -/

/-- Claim C3 as stated: the JPEG/WebP arm narrows an RGBA raster to RGB
before handing it to the JPEG encoder. -/
def JpegBranchNarrowsToRgb : Prop :=
  ∀ (image : DynamicImage) (quality : Nat),
    image.color = ColorType.rgba8 →
    (jpegRequest image quality).color = ColorType.rgb8

/-- Counterexample to C3: for a 1×1 RGBA raster the encode request built by
the JPEG arm still carries the RGBA layout — `compress` passes
`ExtendedColorType::from(image.color())`, the raster's own layout, with no
conversion (lib.rs line 45). -/
theorem jpeg_branch_narrowing_fails : ¬ JpegBranchNarrowsToRgb := by
  intro h
  have hc := h onePixel 80 rfl
  exact absurd hc (by decide)

/-- Fixed-size packers give `packPixels` a length of `k` bytes per pixel. -/
theorem packPixels_length (pack : Rgba → List Nat) (k : Nat)
    (hk : ∀ c, (pack c).length = k) (l : List Rgba) :
    (packPixels pack l).length = k * l.length := by
  induction l with
  | nil => simp [packPixels]
  | cons c rest ih =>
    simp [packPixels, hk, ih]
    ring

/-- The raw byte view has exactly `bytesPerPixel` bytes per pixel. -/
theorem asBytes_length (img : DynamicImage) :
    img.asBytes.length = img.color.bytesPerPixel * img.pixels.length := by
  obtain ⟨w, h, color, pixels⟩ := img
  cases color with
  | rgb8 =>
    exact packPixels_length (fun c => [c.r, c.g, c.b]) 3 (fun c => rfl) pixels
  | rgba8 =>
    exact packPixels_length (fun c => [c.r, c.g, c.b, c.a]) 4 (fun c => rfl) pixels

/-- C3 amended: the JPEG/WebP arm forwards the raster unchanged — the encode
request carries the raster's own channel layout and its full byte payload
(`bytesPerPixel` bytes per pixel, so an RGBA raster keeps its alpha bytes),
and the quality is scaled by 0.75; no RGB narrowing takes place. Whether an
RGBA payload is then encodable is delegated entirely to the external JPEG
encoder. -/
theorem jpeg_branch_forwards_layout (image : DynamicImage) (quality : Nat) :
    (jpegRequest image quality).color = image.color ∧
    (jpegRequest image quality).bytes.length =
      image.color.bytesPerPixel * image.pixels.length ∧
    (jpegRequest image quality).quality = 3 * quality / 4 :=
  ⟨rfl, asBytes_length image, rfl⟩

/-! ## C9: the output animation always loops forever -/

/-- Replaces the loop count reported by the GIF decoder, leaving every other
service and all frame data untouched. -/
def Codec.withGifRepeat (env : Codec) (rep : RepeatKind) : Codec :=
  { env with gifDecode := fun bytes =>
      match env.gifDecode bytes with
      | .error e => .error e
      | .ok anim => .ok { anim with srcRepeat := rep } }

/-- C9: the GIF arm always configures the encoder with an infinite loop
count (`set_repeat(Repeat::Infinite)`, lib.rs line 65), and its behavior is
entirely independent of the loop count recorded in the source animation:
altering the source's loop count to any value changes nothing. -/
theorem gif_output_loop_always_infinite :
    (∀ frames, (mkGifRequest frames).repeatMode = RepeatKind.infinite) ∧
    (∀ env rep bytes quality r,
      gifBranch (Codec.withGifRepeat env rep) bytes quality r =
        gifBranch env bytes quality r) := by
  refine ⟨fun _ => rfl, ?_⟩
  intro env rep bytes quality r
  rw [gifBranch, gifBranch]
  cases h : env.gifDecode bytes with
  | error e =>
    show (match (match env.gifDecode bytes with
        | .error e => Except.error e
        | .ok anim => .ok { anim with srcRepeat := rep }) with
      | .error e => Except.error e
      | .ok anim => _) = _
    rw [h]
  | ok anim =>
    show (match (match env.gifDecode bytes with
        | .error e => Except.error e
        | .ok anim => .ok { anim with srcRepeat := rep }) with
      | .error e => Except.error e
      | .ok anim => _) = _
    rw [h]
    rfl

/-! ## C4: source frame timing is not carried through -/

/-- Claim C4 as stated: every output frame of the animation pipeline
reproduces its source frame's per-frame delay unmodified. -/
def GifTimingCarried : Prop :=
  ∀ (quantize : QuantizeFn) (quality : Nat) (r : ℚ) (frame out : GifFrame),
    gifProcessFrame quantize quality r frame = .ok out → out.delay = frame.delay

/-- Counterexample to C4: a source frame with delay 50 is processed into an
output frame with delay 0 — `frame.into_buffer()` keeps only the raster and
`Frame::new` constructs the output frame "without any delay" (lib.rs lines
56-60), so source timing is discarded, not reproduced. -/
theorem gif_frame_delay_not_carried : ¬ GifTimingCarried := by
  intro h
  have hc := h trivialQuantize 80 1 ⟨onePixel, 50, 0, 0⟩ ⟨onePixel, 0, 0, 0⟩ rfl
  exact absurd hc (by decide)

/-- C4 amended: every successfully produced output frame of the animation
pipeline has the default metadata of `Frame::new` — delay 0 and zero
offsets — regardless of the timing recorded in its source frame. -/
theorem gif_output_frame_default_timing (quantize : QuantizeFn) (quality : Nat)
    (r : ℚ) (frame out : GifFrame)
    (h : gifProcessFrame quantize quality r frame = .ok out) :
    out.delay = 0 ∧ out.left = 0 ∧ out.top = 0 := by
  simp only [gifProcessFrame] at h
  cases hq : quantify_png_with_rgba quantize (resize_image frame.buffer r) quality with
  | error e =>
    rw [hq] at h
    exact absurd h (by simp)
  | ok image =>
    rw [hq] at h
    have hout : GifFrame.new image = out := by injection h
    rw [← hout]
    exact ⟨rfl, rfl, rfl⟩

/-- Witness for C4's amended theorem at the concrete delay-50 frame. -/
theorem gif_output_frame_default_timing_witness :
    (⟨onePixel, 0, 0, 0⟩ : GifFrame).delay = 0 ∧
    (⟨onePixel, 0, 0, 0⟩ : GifFrame).left = 0 ∧
    (⟨onePixel, 0, 0, 0⟩ : GifFrame).top = 0 :=
  gif_output_frame_default_timing trivialQuantize 80 1 ⟨onePixel, 50, 0, 0⟩
    ⟨onePixel, 0, 0, 0⟩ rfl

/-! ## C5: one frame's quantization failure aborts the whole animation -/

/-- The only error the per-frame closure can surface is the panic of its
`.unwrap()`. -/
theorem gifProcessFrame_error_is_panic (quantize : QuantizeFn) (quality : Nat)
    (r : ℚ) (frame : GifFrame) (e : Err)
    (h : gifProcessFrame quantize quality r frame = .error e) : e = .panicked := by
  simp only [gifProcessFrame] at h
  cases hq : quantify_png_with_rgba quantize (resize_image frame.buffer r) quality with
  | error e' =>
    rw [hq] at h
    injection h with h
    exact h.symm
  | ok image =>
    rw [hq] at h
    exact absurd h (by simp)

/-- A failing quantization makes the per-frame closure panic. -/
theorem gifProcessFrame_panics_of_quantify_error (quantize : QuantizeFn)
    (quality : Nat) (r : ℚ) (frame : GifFrame) (e : Err)
    (h : quantify_png_with_rgba quantize (resize_image frame.buffer r) quality =
      .error e) :
    gifProcessFrame quantize quality r frame = .error .panicked := by
  simp only [gifProcessFrame]
  rw [h]

/-- If any frame's processing panics, the whole frame traversal panics: no
frame is skipped and no partial frame list is produced. -/
theorem processFrames_fails (quantize : QuantizeFn) (quality : Nat) (r : ℚ)
    (frames : List GifFrame)
    (h : ∃ frame ∈ frames, gifProcessFrame quantize quality r frame = .error .panicked) :
    processFrames quantize quality r frames = .error .panicked := by
  induction frames with
  | nil =>
    obtain ⟨f, hf, _⟩ := h
    exact absurd hf (by simp)
  | cons a rest ih =>
    obtain ⟨f, hf, herr⟩ := h
    cases ha : gifProcessFrame quantize quality r a with
    | error e =>
      have he : e = Err.panicked := gifProcessFrame_error_is_panic _ _ _ _ _ ha
      subst he
      rw [processFrames, ha]
    | ok fa =>
      rcases List.mem_cons.mp hf with hfa | hrest
      · rw [hfa] at herr
        rw [herr] at ha
        exact absurd ha (by simp)
      · have hrec := ih ⟨f, hrest, herr⟩
        rw [processFrames, ha, hrec]

/-- C5: if the GIF arm is reached and the quantization of at least one
decoded frame fails, `compress` aborts the whole animation and returns the
single terminal error `panicked` (the `.unwrap()` panic of lib.rs line 59,
surfaced to the caller as an aborted call) — no skip-and-continue and no
partial output. -/
theorem gif_frame_failure_aborts_animation (env : Codec) (bytes : List Nat)
    (quality : Nat) (r : ℚ) (anim : GifAnimation) (image0 : DynamicImage)
    (hload : loadFromMemory env bytes = .ok image0)
    (hfmt : guessFormat bytes = .ok .gif)
    (hdec : env.gifDecode bytes = .ok anim)
    (hfail : ∃ frame ∈ anim.frames, ∃ e,
      quantify_png_with_rgba env.quantize (resize_image frame.buffer r) quality =
        .error e) :
    compress env bytes quality r = .error .panicked := by
  have hframes : processFrames env.quantize quality r anim.frames = .error .panicked := by
    apply processFrames_fails
    obtain ⟨f, hf, e, he⟩ := hfail
    exact ⟨f, hf, gifProcessFrame_panics_of_quantify_error _ _ _ _ _ he⟩
  have hbranch : gifBranch env bytes quality r = .error .panicked := by
    simp only [gifBranch, hdec, hframes]
  have hbody : compressBody env bytes quality r = .error .panicked := by
    simp only [compressBody, hload, hfmt, formatBranch]
    exact hbranch
  rw [compress, hbody]

/-- A codec whose quantizer always refuses, over a one-frame animation. -/
def failingCodec : Codec :=
  { trivialCodec with
    quantize := fun _ _ _ _ _ => .error .quantizationFailed,
    gifDecode := fun _ => .ok { frames := [⟨onePixel, 50, 0, 0⟩], srcRepeat := .finite 0 } }

/-- Witness for C5: with the always-failing quantizer, compressing a GIF
input ends in the single terminal `panicked` error. -/
theorem gif_frame_failure_aborts_animation_witness :
    compress failingCodec gifBytes 80 1 = .error .panicked :=
  gif_frame_failure_aborts_animation failingCodec gifBytes 80 1
    { frames := [⟨onePixel, 50, 0, 0⟩], srcRepeat := .finite 0 } onePixel
    rfl rfl rfl ⟨⟨onePixel, 50, 0, 0⟩, by simp, .quantizationFailed, rfl⟩

/-! ## C8: palette/index invariants of the quantization step -/

/-- Modelled from the spec: the interface contract of the external
quantization service (spec §3 invariants and §4.3/§6 interface), whose
implementation (`imagequant`) is outside this repository — a successful
`quantize` + `remapped` call yields indexes that each reference a palette
entry and number exactly one per declared pixel. -/
def QuantizerContract (quantize : QuantizeFn) : Prop :=
  ∀ qmin qmax data w h palette indexes,
    quantize qmin qmax data w h = .ok (palette, indexes) →
    (∀ i ∈ indexes, i < palette.length) ∧ indexes.length = w * h

/-- Widening to RGBA preserves the dimensions. -/
theorem intoRgba8_dims (img : DynamicImage) :
    img.intoRgba8.width = img.width ∧ img.intoRgba8.height = img.height := by
  obtain ⟨w, h, color, pixels⟩ := img
  cases color with
  | rgb8 => exact ⟨rfl, rfl⟩
  | rgba8 => exact ⟨rfl, rfl⟩

/-- When every index is within the palette, the reconstruction lookup
succeeds for every pixel and preserves the pixel count. -/
theorem lookupAll_ok_of_bounds (palette : List Rgba) (l : List Nat)
    (h : ∀ i ∈ l, i < palette.length) :
    ∃ cols, lookupAll palette l = .ok cols ∧ cols.length = l.length := by
  induction l with
  | nil => exact ⟨[], rfl, rfl⟩
  | cons i rest ih =>
    have hi : i < palette.length := h i (by simp)
    obtain ⟨cols, hcols, hlen⟩ := ih fun j hj => h j (by simp [hj])
    have hp : paletteLookup palette i = .ok (palette.get ⟨i, hi⟩) := dif_pos hi
    refine ⟨palette.get ⟨i, hi⟩ :: cols, ?_, by simp [hlen]⟩
    simp only [lookupAll, hp, hcols]

/-- C8: under the quantizer's interface contract, every successful
quantization of an image yields indexes that are all strictly below the
palette length, exactly `width × height` of them (the widening to RGBA on
lib.rs line 153 preserves the dimensions fed to the quantizer), and as a
consequence the per-pixel palette lookup of the RGBA reconstruction is in
bounds for every pixel, so the reconstruction itself succeeds. -/
theorem quantization_invariants (quantize : QuantizeFn) (image : DynamicImage)
    (quality : Nat) (palette : List Rgba) (indexes : List Nat)
    (hc : QuantizerContract quantize)
    (h : quantify_and_get_platte_and_indexes quantize image quality =
      .ok (palette, indexes)) :
    (∀ i ∈ indexes, i < palette.length) ∧
    indexes.length = image.width * image.height ∧
    ∃ img, quantify_png_with_rgba quantize image quality = .ok img := by
  have hq : quantize 0 quality (chunksExact4 image.intoRgba8.asBytes)
      image.intoRgba8.width image.intoRgba8.height = .ok (palette, indexes) := by
    simpa only [quantify_and_get_platte_and_indexes] using h
  obtain ⟨hbound, hlen⟩ := hc _ _ _ _ _ _ _ hq
  obtain ⟨hw, hh⟩ := intoRgba8_dims image
  rw [hw, hh] at hlen
  obtain ⟨cols, hcols, hclen⟩ := lookupAll_ok_of_bounds palette indexes hbound
  have hle : 4 * image.width * image.height ≤
      (packPixels (fun c => [c.r, c.g, c.b, c.a]) cols).length := by
    rw [packPixels_length (fun c => [c.r, c.g, c.b, c.a]) 4 (fun c => rfl) cols,
      hclen, hlen]
    exact Nat.le_of_eq (Nat.mul_assoc 4 _ _)
  have henc : quantify_png_with_rgba quantize image quality =
      .ok { width := image.width, height := image.height, color := .rgba8,
            pixels := (chunksExact4
                (packPixels (fun c => [c.r, c.g, c.b, c.a]) cols)).take
              (image.width * image.height) } := by
    simp only [quantify_png_with_rgba, h, hcols, rgbaImageFromVec]
    rw [if_pos hle]
  exact ⟨hbound, hlen, _, henc⟩

/-- The trivial quantizer satisfies the external interface contract. -/
theorem trivialQuantize_contract : QuantizerContract trivialQuantize := by
  intro qmin qmax data w h palette indexes hq
  simp only [trivialQuantize] at hq
  injection hq with hq
  injection hq with hp hi
  subst hp
  subst hi
  constructor
  · intro i hmem
    have := List.eq_of_mem_replicate hmem
    subst this
    decide
  · simp

/-- Witness for C8 at the 1×1 fixture: one palette entry, one in-bounds
index, and a successful reconstruction. -/
theorem quantization_invariants_witness :
    (∀ i ∈ ([0] : List Nat), i < ([⟨10, 20, 30, 255⟩] : List Rgba).length) ∧
    ([0] : List Nat).length = onePixel.width * onePixel.height ∧
    ∃ img, quantify_png_with_rgba trivialQuantize onePixel 80 = .ok img :=
  quantization_invariants trivialQuantize onePixel 80 [⟨10, 20, 30, 255⟩] [0]
    trivialQuantize_contract rfl

/-! ## C6: resized dimensions are not exactly the floored products -/

/-- Claim C6 as stated: for factors in (0, 1), the resized raster has width
`floor(w·f)` and height `floor(h·f)` exactly. -/
def ResizeDimsExactFloor : Prop :=
  ∀ (img : DynamicImage) (f : ℚ), 0 < f → f ≤ 1 → f ≠ 1 →
    (resize_image img f).width = (⌊(img.width : ℚ) * f⌋).toNat ∧
    (resize_image img f).height = (⌊(img.height : ℚ) * f⌋).toNat

/-- A 100×99 opaque raster: its aspect ratio makes the floored target box
50×49 unreachable for the aspect-preserving resize. -/
def cexImg : DynamicImage :=
  { width := 100, height := 99, color := .rgba8,
    pixels := List.replicate 9900 ⟨10, 20, 30, 255⟩ }

/-- The floored width target of `cexImg` at factor 1/2 is 50. -/
theorem cexImg_floor_width : ⌊(cexImg.width : ℚ) * (1 / 2)⌋ = 50 := by
  rw [show (cexImg.width : ℚ) = 100 by norm_num [cexImg],
    show (100 : ℚ) * (1 / 2) = ((50 : ℤ) : ℚ) by norm_num]
  exact Int.floor_intCast 50

/-- The floored height target of `cexImg` at factor 1/2 is 49. -/
theorem cexImg_floor_height : ⌊(cexImg.height : ℚ) * (1 / 2)⌋ = 49 := by
  rw [show (cexImg.height : ℚ) = 99 by norm_num [cexImg], Int.floor_eq_iff]
  norm_num

/-- Evaluation of the resize at the counterexample point: the crate's
`resize_dimensions(100, 99, 50, 49)` picks the smaller ratio 49/99 and
rounds `100 · 49/99 ≈ 49.49` to width 49, not the requested 50. -/
theorem cexImg_resize_width : (resize_image cexImg (1 / 2)).width = 49 := by
  rw [resize_image_of_ne_one cexImg (1 / 2) (by norm_num),
    cexImg_floor_width, cexImg_floor_height]
  rw [(resize_dims cexImg (50 : ℤ).toNat (49 : ℤ).toNat FilterType.nearest).1]
  show (resizeDimensions 100 99 50 49).1 = 49
  simp only [resizeDimensions, Nat.cast_ofNat]
  rw [min_eq_right (by norm_num : (49 : ℚ) / 99 ≤ 50 / 100)]
  rw [show roundHalf ((100 : ℚ) * (49 / 99)) = 49 by
    rw [roundHalf, Int.floor_eq_iff]
    norm_num]
  rfl

/-- Counterexample to C6: at `cexImg` with factor 1/2 the output width is 49
while the claim demands `floor(100 · 1/2) = 50` — `DynamicImage::resize`
preserves the aspect ratio inside the requested box instead of hitting both
floored dimensions. -/
theorem resize_dims_exact_floor_fails : ¬ ResizeDimsExactFloor := by
  intro h
  obtain ⟨hc, -⟩ := h cexImg (1 / 2) (by norm_num) (by norm_num) (by norm_num)
  rw [cexImg_resize_width, cexImg_floor_width] at hc
  exact absurd hc (by decide)

/-- Rounding half-up of a rational below a natural bound stays below it. -/
theorem roundHalf_le_nat (x : ℚ) (n : Nat) (hx : x ≤ n) :
    (roundHalf x).toNat ≤ n := by
  have h1 : ⌊(n : ℚ) + 1 / 2⌋ = (n : ℤ) := by
    rw [show ((n : ℚ) + 1 / 2) = ((n : ℤ) : ℚ) + 1 / 2 by push_cast; ring,
      Int.floor_int_add]
    norm_num
  have h2 : roundHalf x ≤ (n : ℤ) := by
    rw [roundHalf, ← h1]
    exact Int.floor_le_floor (by linarith)
  exact Int.toNat_le.mpr h2

/-- The aspect-preserving dimensions fit inside the requested box, up to the
1-pixel clamp. -/
theorem resizeDimensions_fits (w h nw nh : Nat) (hw : 1 ≤ w) (hh : 1 ≤ h) :
    (resizeDimensions w h nw nh).1 ≤ max nw 1 ∧
    (resizeDimensions w h nw nh).2 ≤ max nh 1 := by
  have hwq : (0 : ℚ) < (w : ℚ) := by exact_mod_cast hw
  have hhq : (0 : ℚ) < (h : ℚ) := by exact_mod_cast hh
  have hxw : (w : ℚ) * min ((nw : ℚ) / (w : ℚ)) ((nh : ℚ) / (h : ℚ)) ≤ (nw : ℚ) := by
    calc (w : ℚ) * min ((nw : ℚ) / (w : ℚ)) ((nh : ℚ) / (h : ℚ))
        ≤ (w : ℚ) * ((nw : ℚ) / (w : ℚ)) :=
          mul_le_mul_of_nonneg_left (min_le_left _ _) (le_of_lt hwq)
      _ = (nw : ℚ) := by
          rw [mul_comm]
          exact div_mul_cancel₀ _ (ne_of_gt hwq)
  have hxh : (h : ℚ) * min ((nw : ℚ) / (w : ℚ)) ((nh : ℚ) / (h : ℚ)) ≤ (nh : ℚ) := by
    calc (h : ℚ) * min ((nw : ℚ) / (w : ℚ)) ((nh : ℚ) / (h : ℚ))
        ≤ (h : ℚ) * ((nh : ℚ) / (h : ℚ)) :=
          mul_le_mul_of_nonneg_left (min_le_right _ _) (le_of_lt hhq)
      _ = (nh : ℚ) := by
          rw [mul_comm]
          exact div_mul_cancel₀ _ (ne_of_gt hhq)
  constructor
  · exact Nat.max_le.mpr
      ⟨le_trans (roundHalf_le_nat _ nw hxw) (Nat.le_max_left _ _), Nat.le_max_right _ _⟩
  · exact Nat.max_le.mpr
      ⟨le_trans (roundHalf_le_nat _ nh hxh) (Nat.le_max_left _ _), Nat.le_max_right _ _⟩

/-- C6 amended: for factors in (0, 1), `resize_image` requests the floored
box `floor(w·f) × floor(h·f)` with nearest-neighbor filtering, but the
underlying `DynamicImage::resize` preserves the source aspect ratio inside
that box: each output dimension is at least 1 and at most the corresponding
floored target (clamped below by 1); the width need not equal `floor(w·f)`. -/
theorem resize_within_floor_box (img : DynamicImage) (f : ℚ) (h0 : 0 < f)
    (h1 : f ≤ 1) (hne : f ≠ 1) (hw : 1 ≤ img.width) (hh : 1 ≤ img.height) :
    resize_image img f =
      img.resize (⌊(img.width : ℚ) * f⌋).toNat (⌊(img.height : ℚ) * f⌋).toNat
        FilterType.nearest ∧
    1 ≤ (resize_image img f).width ∧ 1 ≤ (resize_image img f).height ∧
    (resize_image img f).width ≤ max (⌊(img.width : ℚ) * f⌋).toNat 1 ∧
    (resize_image img f).height ≤ max (⌊(img.height : ℚ) * f⌋).toNat 1 := by
  have heq := resize_image_of_ne_one img f hne
  have hpos := resizeDimensions_pos img.width img.height
    (⌊(img.width : ℚ) * f⌋).toNat (⌊(img.height : ℚ) * f⌋).toNat
  have hfits := resizeDimensions_fits img.width img.height
    (⌊(img.width : ℚ) * f⌋).toNat (⌊(img.height : ℚ) * f⌋).toNat hw hh
  refine ⟨heq, ?_, ?_, ?_, ?_⟩ <;> rw [heq]
  · exact hpos.1
  · exact hpos.2
  · exact hfits.1
  · exact hfits.2

/-- Witness for C6's amended theorem at the 100×99 raster with factor 1/2. -/
theorem resize_within_floor_box_witness :
    resize_image cexImg (1 / 2) =
      cexImg.resize (⌊(cexImg.width : ℚ) * (1 / 2)⌋).toNat
        (⌊(cexImg.height : ℚ) * (1 / 2)⌋).toNat FilterType.nearest ∧
    1 ≤ (resize_image cexImg (1 / 2)).width ∧
    1 ≤ (resize_image cexImg (1 / 2)).height ∧
    (resize_image cexImg (1 / 2)).width ≤ max (⌊(cexImg.width : ℚ) * (1 / 2)⌋).toNat 1 ∧
    (resize_image cexImg (1 / 2)).height ≤ max (⌊(cexImg.height : ℚ) * (1 / 2)⌋).toNat 1 :=
  resize_within_floor_box cexImg (1 / 2) (by norm_num) (by norm_num) (by norm_num)
    (by decide) (by decide)

end ImageCompression
